import Mathlib

/-!
Verification of the SelfEval heuristic code-quality scorer.

The source is a single Python module (`selfeval.py`).  Every definition below
is a shallow embedding of the corresponding Python function, working over
`List Char` / `String` with explicit fuel where the Python scanning loops are
not structurally recursive.  Python ints are modelled as `Int` (scores) or
`Nat` (counts), Python floats (the documentation ratio and the report
percentage) as `ℚ`, Python dicts with insertion order as association lists,
and `ast.parse` — an external capability of the host language — as an
abstract `ParseResult` supplied by a `parser : String → ParseResult`
argument.
-/

namespace SelfEval

/-! ### Basic string utilities -/

/-- Does `pat` occur at the head of `l`?  (Prefix test used by the
`startswith`/substring helpers.) -/
def leadMatch : List Char → List Char → Bool
  | [], _ => true
  | _ :: _, [] => false
  | p :: ps, c :: cs => p == c && leadMatch ps cs

/-- Does `pat` occur anywhere in `l`?  Models Python `pat in s`. -/
def hasRun (pat : List Char) : List Char → Bool
  | [] => leadMatch pat []
  | l@(_ :: t) => leadMatch pat l || hasRun pat t

/-- Python `pat in s` on strings. -/
def strContains (s pat : String) : Bool := hasRun pat.data s.data

/-- Fueled worker for Python `s.count(pat)`: non-overlapping occurrences,
scanning left to right.  All call sites pass a non-empty literal pattern. -/
def countSubF (pat : List Char) : Nat → List Char → Nat
  | 0, _ => 0
  | _ + 1, [] => if leadMatch pat [] then 1 else 0
  | fuel + 1, l@(_ :: t) =>
    if leadMatch pat l then 1 + countSubF pat fuel (l.drop pat.length)
    else countSubF pat fuel t

/-- Python `s.count(pat)`. -/
def countSub (s pat : String) : Nat := countSubF pat.data (s.data.length + 1) s.data

/-- Python `s.lower()` (ASCII model). -/
def lowerStr (s : String) : String := ⟨s.data.map Char.toLower⟩

/-- Python whitespace characters (`str.strip` default / regex `\s`, ASCII model). -/
def isPySpace (c : Char) : Bool :=
  c == ' ' || c == '\t' || c == '\n' || c == '\r' || c == '\x0b' || c == '\x0c'

/-- Python `code.split("\x0a")`: split on newline, keeping empty pieces. -/
def splitLinesCh : List Char → List (List Char)
  | [] => [[]]
  | '\n' :: rest => [] :: splitLinesCh rest
  | c :: rest =>
    match splitLinesCh rest with
    | [] => [[c]]
    | h :: t => (c :: h) :: t

/-- Python `line.strip()`. -/
def stripCh (l : List Char) : List Char :=
  ((l.dropWhile isPySpace).reverse.dropWhile isPySpace).reverse

/-- Python `sep.join(items)`. -/
def joinWith (sep : String) : List String → String
  | [] => ""
  | [s] => s
  | s :: rest => s ++ sep ++ joinWith sep rest

/-- Take the maximal run of characters satisfying `f`, returning the run and
the remainder (models a greedy character-class repetition). -/
def takeRun (f : Char → Bool) : List Char → List Char × List Char
  | [] => ([], [])
  | c :: cs =>
    if f c then
      let r := takeRun f cs
      (c :: r.1, r.2)
    else ([], c :: cs)

/-! ### A small regex engine

Enough of Python `re` for the patterns appearing in the source: literal
characters and greedy `*` / `+` over a character class, with full
backtracking.  `remainders` lists the suffixes left after a match starting at
the head of the input, in the engine's preference order (greedy repetitions
try the longest consumption first), so its head is exactly the match Python's
backtracking engine produces. -/

inductive RTok where
  | lit (c : Char)
  | star (f : Char → Bool)
  | plus (f : Char → Bool)

/-- Literal token sequence for a string. -/
def lits (s : String) : List RTok := s.data.map RTok.lit

/-- Suffixes of `l` after consuming a (possibly empty) run of `f`-characters,
longest consumption first. -/
def splitsDesc (f : Char → Bool) : List Char → List (List Char)
  | [] => [[]]
  | c :: cs => if f c then splitsDesc f cs ++ [c :: cs] else [c :: cs]

/-- All suffixes remaining after matching `toks` at the head of the input, in
backtracking preference order. -/
def remainders : List RTok → List Char → List (List Char)
  | [], s => [s]
  | .lit _ :: _, [] => []
  | .lit c :: ts, x :: s => if x == c then remainders ts s else []
  | .star f :: ts, s => (splitsDesc f s).flatMap fun s' => remainders ts s'
  | .plus _ :: _, [] => []
  | .plus f :: ts, x :: s =>
    if f x then (splitsDesc f s).flatMap fun s' => remainders ts s' else []

/-- Python `re.search(pat, s)` viewed as a Boolean: does the pattern match at
some position? -/
def regexFind (toks : List RTok) : List Char → Bool
  | [] => !(remainders toks []).isEmpty
  | s@(_ :: t) => !(remainders toks s).isEmpty || regexFind toks t

/-- Fueled worker for `len(re.findall(pat, s))`: leftmost non-overlapping
matches, each ending where Python's greedy backtracking ends it. -/
def countReF (toks : List RTok) : Nat → List Char → Nat
  | 0, _ => 0
  | fuel + 1, s =>
    match (remainders toks s).head? with
    | some rest =>
      if rest.length < s.length then 1 + countReF toks fuel rest
      else 1 + (match s with | [] => 0 | _ :: t => countReF toks fuel t)
    | none => match s with | [] => 0 | _ :: t => countReF toks fuel t

/-- `len(re.findall(pat, s))`. -/
def countMatches (toks : List RTok) (s : List Char) : Nat :=
  countReF toks (s.length + 1) s

/-! ### Character classes of the source's patterns (ASCII model) -/

/-- Regex `\w`. -/
def isWordChar (c : Char) : Bool := c.isAlphanum || c == '_'

/-- Regex `[a-z]`. -/
def isLowerAZ (c : Char) : Bool := 'a' ≤ c && c ≤ 'z'

/-- Regex `[a-zA-Z_]`. -/
def isIdentStart (c : Char) : Bool := c.isAlpha || c == '_'

/-- Regex `[a-zA-Z0-9_]`. -/
def isIdentChar (c : Char) : Bool := c.isAlphanum || c == '_'

/-- Regex `[a-z_]`. -/
def isLowIdentStart (c : Char) : Bool := isLowerAZ c || c == '_'

/-- Regex `[a-z0-9_]`. -/
def isLowIdentChar (c : Char) : Bool := isLowerAZ c || c.isDigit || c == '_'

/-! ### The compiled patterns of the source -/

/-- `"""[^"]*"""` — the docstring pattern of `evaluate_documentation`. -/
def docTok : List RTok :=
  lits "\"\"\"" ++ [.star fun c => !(c == '"')] ++ lits "\"\"\""

/-- `for\s+\w+\s+in\s+range\(len\(` — index-based iteration. -/
def rangeLenTok : List RTok :=
  lits "for" ++ [.plus isPySpace, .plus isWordChar, .plus isPySpace] ++
  lits "in" ++ [.plus isPySpace] ++ lits "range(len("

/-- `for\s+\w+\s+in[^:]+:[^\n]*\n[^\n]*\s+for\s+\w+\s+in` — nested loops. -/
def nestedTok : List RTok :=
  lits "for" ++ [.plus isPySpace, .plus isWordChar, .plus isPySpace] ++
  lits "in" ++
  [.plus fun c => !(c == ':')] ++ lits ":" ++
  [.star fun c => !(c == '\n')] ++ lits "\n" ++
  [.star fun c => !(c == '\n'), .plus isPySpace] ++
  lits "for" ++ [.plus isPySpace, .plus isWordChar, .plus isPySpace] ++ lits "in"

/-- `\[[^\]\[]+for\s+\w+\s+in[^\]\[]+\]` — list comprehensions. -/
def comprTok : List RTok :=
  lits "[" ++ [.plus fun c => !(c == '[' || c == ']')] ++
  lits "for" ++ [.plus isPySpace, .plus isWordChar, .plus isPySpace] ++
  lits "in" ++ [.plus fun c => !(c == '[' || c == ']'), .lit ']']

/-! ### Dedicated scanners

Four of the source's patterns need captured groups, a word boundary, or a
lookahead, which the small engine above does not model.  Each of them is
deterministic (its greedy repetitions are over classes disjoint from what
follows, so no backtracking can succeed where greedy matching fails), and is
implemented here as a direct scanner.  All scanners walk every start
position, mirror `re.findall`'s leftmost non-overlapping semantics, and use
fuel bounded by the input length. -/

/-- One attempt of `\b([a-z_][a-z0-9_]*) *=[^=]` at the head of the input
(`prevIsWord` says whether a word character immediately precedes, i.e.
whether `\b` fails here).  Returns the captured identifier and the remainder
after the whole match on success. -/
def varAt (prevIsWord : Bool) (l : List Char) : Option (List Char × List Char) :=
  match l with
  | [] => none
  | c :: cs =>
    if !prevIsWord && isLowIdentStart c then
      let run := takeRun isLowIdentChar cs
      let sps := takeRun (fun d => d == ' ') run.2
      match sps.2 with
      | '=' :: d :: rest => if !(d == '=') then some (c :: run.1, d :: rest) else none
      | _ => none
    else none

/-- Fueled findall loop for the variable pattern of `evaluate_readability`.
After a match the scan resumes after the consumed `[^=]` character. -/
def varScanF : Nat → Bool → List Char → List (List Char)
  | 0, _, _ => []
  | _ + 1, _, [] => []
  | fuel + 1, prevW, l@(c :: cs) =>
    match varAt prevW l with
    | some r =>
      match r.2 with
      | [] => [r.1]
      | d :: rest => r.1 :: varScanF fuel (isWordChar d) rest
    | none => varScanF fuel (isWordChar c) cs

/-- `re.findall(r"\b([a-z_][a-z0-9_]*) *=[^=]", code)`. -/
def varScanRun (code : String) : List (List Char) :=
  varScanF (code.data.length + 1) false code.data

/-- One attempt of `def\s+([a-zA-Z_][a-zA-Z0-9_]*)` at the head of the
input, returning the captured function name and the remainder. -/
def funcAt (l : List Char) : Option (List Char × List Char) :=
  match l with
  | 'd' :: 'e' :: 'f' :: rest =>
    let ws := takeRun isPySpace rest
    if ws.1.isEmpty then none
    else
      match ws.2 with
      | c :: cs =>
        if isIdentStart c then
          let run := takeRun isIdentChar cs
          some (c :: run.1, run.2)
        else none
      | [] => none
  | _ => none

/-- Fueled findall loop for the function-name pattern. -/
def funcScanF : Nat → List Char → List (List Char)
  | 0, _ => []
  | _ + 1, [] => []
  | fuel + 1, l@(_ :: t) =>
    match funcAt l with
    | some r => r.1 :: funcScanF fuel r.2
    | none => funcScanF fuel t

/-- `re.findall(r"def\s+([a-zA-Z_][a-zA-Z0-9_]*)", code)`. -/
def funcScanRun (code : String) : List (List Char) :=
  funcScanF (code.data.length + 1) code.data

/-- `re.match(r"^[a-z][a-z0-9_]*$", f)` viewed as a Boolean: snake_case test
of `evaluate_readability` (function names never contain a newline, so `$` is
end-of-string here). -/
def snakeOk : List Char → Bool
  | [] => false
  | c :: cs => isLowerAZ c && cs.all isLowIdentChar

/-- One attempt of `^([a-zA-Z_][a-zA-Z0-9_]*)\s*=[^=]` at the head of the
input (caller guarantees a line start).  On success returns the `[^=]`
character consumed last together with the remainder after it, so the caller
can keep its line-start flag accurate. -/
def globalAt (l : List Char) : Option (Char × List Char) :=
  match l with
  | [] => none
  | c :: cs =>
    if isIdentStart c then
      let run := takeRun isIdentChar cs
      let ws := takeRun isPySpace run.2
      match ws.2 with
      | '=' :: d :: rest => if !(d == '=') then some (d, rest) else none
      | _ => none
    else none

/-- Fueled findall counting loop for the global-variable pattern
(`re.MULTILINE`: `atLS` tracks whether the current position follows a
newline or is the start of the string). -/
def globalScanF : Nat → Bool → List Char → Nat
  | 0, _, _ => 0
  | _ + 1, _, [] => 0
  | fuel + 1, atLS, l@(c :: cs) =>
    match if atLS then globalAt l else none with
    | some r => 1 + globalScanF fuel (r.1 == '\n') r.2
    | none => globalScanF fuel (c == '\n') cs

/-- `len(re.findall(r"^([a-zA-Z_][a-zA-Z0-9_]*)\s*=[^=]", code, re.MULTILINE))`. -/
def globalVarCount (code : String) : Nat :=
  globalScanF (code.data.length + 1) true code.data

/-- One attempt of `[^\w\d\.]([2-9]|[1-9]\d+)(?![\d\.])` at the head of the
input.  The alternation tries the single digit `[2-9]` first and falls back
to `[1-9]\d+`; the lookahead consumes nothing.  Returns the remainder after
the consumed characters. -/
def magicAt (l : List Char) : Option (List Char) :=
  match l with
  | [] => none
  | a :: rest =>
    if !(isWordChar a || a == '.') then
      match rest with
      | [] => none
      | d :: rest2 =>
        if '2' ≤ d && d ≤ '9' &&
            (match rest2 with
             | [] => true
             | e :: _ => !(e.isDigit || e == '.')) then
          some rest2
        else if '1' ≤ d && d ≤ '9' then
          let run := takeRun Char.isDigit rest2
          if !run.1.isEmpty &&
              (match run.2 with
               | [] => true
               | e :: _ => !(e == '.')) then
            some run.2
          else none
        else none
    else none

/-- Fueled findall counting loop for the magic-number pattern. -/
def magicScanF : Nat → List Char → Nat
  | 0, _ => 0
  | _ + 1, [] => 0
  | fuel + 1, l@(_ :: t) =>
    match magicAt l with
    | some rest => 1 + magicScanF fuel rest
    | none => magicScanF fuel t

/-- `len(re.findall(r"[^\w\d\.]([2-9]|[1-9]\d+)(?![\d\.])", code))`. -/
def magicNumberCount (code : String) : Nat :=
  magicScanF (code.data.length + 1) code.data

/-! ### The analyzers (`selfeval.py` lines 41–204) -/

/-- Outcome of the host language's parser (`ast.parse`), the one external
capability of the module: success, a localized `SyntaxError` carrying a line
number and message, or any other parser-internal error carrying its text. -/
inductive ParseResult where
  | ok
  | syntacticError (lineno : Nat) (msg : String)
  | otherError (msg : String)
deriving DecidableEq

/-- `evaluate_syntactic_correctness` (lines 41–49), with the `try/except`
around `ast.parse` modelled by casing on the parse outcome. -/
def evaluate_syntactic_correctness (p : ParseResult) : Int × String :=
  match p with
  | .ok => (10, "No syntax errors detected.")
  | .syntacticError lineno msg =>
    (0, "Syntax error at line " ++ toString lineno ++ ": " ++ msg)
  | .otherError msg => (2, "Error parsing code: " ++ msg)

/-- `len(re.findall(r'"""[^"]*"""', code, re.DOTALL))` (the class `[^"]`
already matches newlines, so `re.DOTALL` is inert). -/
def docstringCount (code : String) : Nat := countMatches docTok code.data

/-- The line walk of `evaluate_documentation` (lines 57–66): pair of
`(comment_count, code_lines)`. -/
def docLineCounts (code : String) : Nat × Nat :=
  (splitLinesCh code.data).foldl
    (fun acc line =>
      let l := stripCh line
      if !l.isEmpty && !leadMatch ['"', '"', '"'] l then
        if leadMatch ['#'] l then (acc.1 + 1, acc.2)
        else if !leadMatch ['"', '"', '"'] l.reverse then (acc.1, acc.2 + 1)
        else acc
      else acc)
    (0, 0)

/-- `doc_ratio = (len(docstrings) + comment_count) / max(1, code_lines)`
(line 69), the Python float modelled exactly as a rational. -/
def docRatio (code : String) : ℚ :=
  ((docstringCount code : ℚ) + ((docLineCounts code).1 : ℚ)) /
    ((max 1 (docLineCounts code).2 : Nat) : ℚ)

/-- `evaluate_documentation` (lines 51–76). -/
def evaluate_documentation (code : String) : Int × String :=
  if docRatio code ≥ 0.3 ∧ docstringCount code > 0 then
    (9, "Code is well-documented with clear explanations.")
  else if docRatio code ≥ 0.15 then
    (6, "Code has adequate documentation but could be improved.")
  else
    (3, "Code lacks sufficient documentation.")

/-- Line 84: `"+= 1" in code and "counter" not in code.lower()`. -/
def effIncrCond (code : String) : Bool :=
  strContains code "+= 1" && !strContains (lowerStr code) "counter"

/-- Line 88: presence of the `range(len(` iteration idiom. -/
def effRangeLenCond (code : String) : Bool := regexFind rangeLenTok code.data

/-- Line 93: `nested_loop_count`. -/
def nestedLoopCount (code : String) : Nat := countMatches nestedTok code.data

/-- Line 99: `comprehensions`. -/
def comprehensionCount (code : String) : Nat := countMatches comprTok code.data

/-- The running score of `evaluate_efficiency` after all four adjustments
(lines 80–101): each branch's delta, applied in source order. -/
def effScore (code : String) : Int :=
  7 - (if effIncrCond code then 1 else 0)
    - (if effRangeLenCond code then 1 else 0)
    - (if nestedLoopCount code > 1 then min (nestedLoopCount code : Int) 3 else 0)
    + (if comprehensionCount code > 0 then min (comprehensionCount code : Int) 2 else 0)

/-- The `issues` list accumulated by `evaluate_efficiency`, in append order. -/
def effIssues (code : String) : List String :=
  (if effIncrCond code then
    ["Consider using more efficient increment methods where applicable"] else []) ++
  (if effRangeLenCond code then
    ["Using range(len()) is less readable than direct iteration"] else []) ++
  (if nestedLoopCount code > 1 then
    ["Found " ++ toString (nestedLoopCount code) ++
      " nested loops; consider optimizing if processing large data"] else [])

/-- `evaluate_efficiency` (lines 78–110). -/
def evaluate_efficiency (code : String) : Int × String :=
  let score := effScore code
  let issues := effIssues code
  if score ≥ 8 then (score, "Code appears to be efficient with good algorithmic choices.")
  else if score ≥ 5 then
    (score, "Code has reasonable efficiency but could be improved. " ++
      (if issues.isEmpty then "" else joinWith "\n" issues))
  else
    (score, "Code has potential efficiency issues: " ++
      (if issues.isEmpty then "" else joinWith "\n" issues))

/-- Line 118: `long_lines`. -/
def longLineCount (code : String) : Nat :=
  ((splitLinesCh code.data).filter fun l => (stripCh l).length > 100).length

/-- Lines 128–130: `short_vars` — captured identifiers shorter than three
characters and not one of the conventional names. -/
def shortVars (code : String) : List (List Char) :=
  (varScanRun code).filter fun v =>
    v.length < 3 && !((#[['i'], ['j'], ['k'], ['x'], ['y'], ['z']] : Array (List Char)).contains v)

/-- Lines 137–139: `non_snake_case`. -/
def nonSnakeFuncs (code : String) : List (List Char) :=
  (funcScanRun code).filter fun f => !snakeOk f

/-- Lines 147–148: `indents`.  The source calls
`indent_pattern.finditer(code, re.MULTILINE)`, passing the flag in the `pos`
argument slot (`re.MULTILINE` is the integer 8).  The pattern `^( *)\S` was
compiled without `re.MULTILINE`, so its caret can only match at offset 0,
which is below `pos = 8`: no match is ever produced and the list is always
empty. -/
def readIndents (_code : String) : List Nat := []

/-- The running score of `evaluate_readability` after all four adjustments
(lines 114–151), in source order.  The indentation branch mirrors
`if indents and any(i % 4 != 0 for i in indents)`. -/
def readScore (code : String) : Int :=
  7 - (if longLineCount code > 0 then min (longLineCount code : Int) 3 else 0)
    - (if !(shortVars code).isEmpty then min ((shortVars code).length : Int) 2 else 0)
    - (if !(nonSnakeFuncs code).isEmpty then min ((nonSnakeFuncs code).length : Int) 2 else 0)
    - (if !(readIndents code).isEmpty && (readIndents code).any (fun i => !(i % 4 == 0))
        then 2 else 0)

/-- The `issues` list accumulated by `evaluate_readability`, in append order
(the dead indentation branch appends nothing). -/
def readIssues (code : String) : List String :=
  (if longLineCount code > 0 then
    ["Found " ++ toString (longLineCount code) ++ " lines exceeding recommended length"]
   else []) ++
  (if !(shortVars code).isEmpty then
    ["Found " ++ toString (shortVars code).length ++ " variables with overly short names"]
   else []) ++
  (if !(nonSnakeFuncs code).isEmpty then
    ["Found " ++ toString (nonSnakeFuncs code).length ++ " function names not using snake_case"]
   else [])

/-- `evaluate_readability` (lines 112–160). -/
def evaluate_readability (code : String) : Int × String :=
  let score := readScore code
  let issues := readIssues code
  if score ≥ 8 then (score, "Code is very readable with good naming and formatting.")
  else if score ≥ 5 then
    (score, "Code has reasonable readability but could be improved. " ++
      (if issues.isEmpty then "" else joinWith "\n" issues))
  else
    (score, "Code has readability issues: " ++
      (if issues.isEmpty then "" else joinWith "\n" issues))

/-- Line 182: `code.count("try:")`. -/
def tryCount (code : String) : Nat := countSub code "try:"

/-- Line 183: `code.count("except")`. -/
def exceptCount (code : String) : Nat := countSub code "except"

/-- `"except:" in code`. -/
def hasBareExcept (code : String) : Bool := strContains code "except:"

/-- Line 192: `code.count("with")`. -/
def withCount (code : String) : Nat := countSub code "with"

/-- The exception-handling adjustment of `evaluate_best_practices`
(lines 181–189), applied to the running `(score, issues, positives)`. -/
def bpExceptionStep (code : String) (score : Int) (issues positives : List String) :
    Int × List String × List String :=
  if tryCount code > 0 ∧ tryCount code = exceptCount code ∧ hasBareExcept code = false then
    (score + 1, issues, positives ++ ["Uses proper exception handling"])
  else if hasBareExcept code = true then
    (score - 1, issues ++ ["Uses bare except clauses without specifying exception types"],
      positives)
  else (score, issues, positives)

/-- The running score of `evaluate_best_practices` after the global-variable
and magic-number deductions (lines 168–179). -/
def bpBase (code : String) : Int :=
  7 - (if globalVarCount code > 3 then min ((globalVarCount code : Int) - 3) 2 else 0)
    - (if magicNumberCount code > 5 then ((min (magicNumberCount code / 5) 2 : Nat) : Int)
        else 0)

/-- The `issues` list accumulated before the exception-handling adjustment. -/
def bpIssuesBase (code : String) : List String :=
  (if globalVarCount code > 3 then
    ["Uses " ++ toString (globalVarCount code) ++ " global variables"] else []) ++
  (if magicNumberCount code > 5 then
    ["Contains " ++ toString (magicNumberCount code) ++
      " magic numbers that should be constants"] else [])

/-- The final score of `evaluate_best_practices` (after the context-manager
bonus of lines 192–195). -/
def bpScore (code : String) : Int :=
  (bpExceptionStep code (bpBase code) (bpIssuesBase code) []).1 +
    (if withCount code > 0 then min ((withCount code : Int)) 2 else 0)

/-- `evaluate_best_practices` (lines 162–204). -/
def evaluate_best_practices (code : String) : Int × String :=
  let st := bpExceptionStep code (bpBase code) (bpIssuesBase code) []
  let s4 := bpScore code
  let p4 : List String := st.2.2 ++
    (if withCount code > 0 then
      ["Uses context managers (" ++ toString (withCount code) ++ " with statements)"] else [])
  if s4 ≥ 8 then (s4, "Code follows best practices well. " ++ joinWith ", " p4)
  else if s4 ≥ 5 then
    (s4, "Code follows most best practices but has some issues. " ++ joinWith ", " st.2.1)
  else (s4, "Code has several best practice issues: " ++ joinWith ", " st.2.1)

/-! ### The aggregator (`evaluate_code`, lines 206–293) and entry point -/

/-- One per-criterion entry of the report (`results[criterion]`). -/
structure CriterionResult where
  score : Int
  max_score : Int
  message : String
deriving DecidableEq

/-- The full report returned by `evaluate_code`.  `criteria_results` models
the Python dict with its insertion order as an association list. -/
structure EvaluationReport where
  total_score : Int
  max_score : Int
  percentage : ℚ
  criteria_results : List (String × CriterionResult)
  summary : String
deriving DecidableEq

/-- `CRITERIA_DESCRIPTIONS` (lines 9–20). -/
def CRITERIA_DESCRIPTIONS : List (String × String) :=
  [("correctness", "Code is free from syntax errors and logical bugs."),
   ("efficiency", "Code uses efficient algorithms and data structures."),
   ("readability", "Code is easy to read and understand."),
   ("maintainability", "Code is easy to maintain and extend."),
   ("documentation", "Code is well-documented with clear explanations."),
   ("testability", "Code is designed to be easily testable."),
   ("error_handling", "Code handles errors and edge cases appropriately."),
   ("security", "Code is secure and protects against common vulnerabilities."),
   ("modularity", "Code is organized into reusable, well-defined modules."),
   ("best_practices", "Code follows language-specific best practices.")]

/-- `DEFAULT_CRITERIA` (lines 23–29). -/
def DEFAULT_CRITERIA : List String :=
  ["correctness", "efficiency", "readability", "documentation", "best_practices"]

/-- `c in CRITERIA_DESCRIPTIONS` — key membership in the registry. -/
def registryHasKey (c : String) : Bool :=
  CRITERIA_DESCRIPTIONS.any fun p => p.1 == c

/-- Line 208–209: `if not criteria: criteria = DEFAULT_CRITERIA` (both
`None` and the empty list are falsy). -/
def effectiveCriteria : Option (List String) → List String
  | none => DEFAULT_CRITERIA
  | some [] => DEFAULT_CRITERIA
  | some l => l

/-- Line 216: `valid_criteria = [c for c in criteria if c in CRITERIA_DESCRIPTIONS]`. -/
def validCriteria (criteria : Option (List String)) : List String :=
  (effectiveCriteria criteria).filter registryHasKey

/-- Dict key test `k in results`. -/
def hasKey (rs : List (String × CriterionResult)) (k : String) : Bool :=
  rs.any fun p => p.1 == k

/-- Dict lookup `results[k]` as an option. -/
def lookupA (k : String) : List (String × CriterionResult) → Option CriterionResult
  | [] => none
  | p :: ps => if p.1 == k then some p.2 else lookupA k ps

/-- Dict assignment `results[k] = v`: replace in place if the key exists,
otherwise append (Python dicts preserve first-insertion order). -/
def dictInsert (rs : List (String × CriterionResult)) (k : String) (v : CriterionResult) :
    List (String × CriterionResult) :=
  if hasKey rs k then rs.map fun p => if p.1 == k then (k, v) else p
  else rs ++ [(k, v)]

/-- The placeholder entry stamped during the short-circuit (lines 233–237). -/
def notEvalRes : CriterionResult :=
  ⟨0, 10, "Not evaluated due to syntax errors"⟩

/-- One iteration of the stamping loop (lines 231–237):
`if c != "correctness" and c not in results: results[c] = {...}`. -/
def stampNotEvaluated (rs : List (String × CriterionResult)) (c : String) :
    List (String × CriterionResult) :=
  if !(c == "correctness") && !hasKey rs c then rs ++ [(c, notEvalRes)] else rs

/-- The per-criterion dispatch of the main loop (lines 251–263).  The
`correctness` name never reaches this dispatch (it is skipped earlier), so
like the source it would fall into the placeholder arm. -/
def evalCriterion (code criterion : String) : Int × String :=
  if criterion = "documentation" then evaluate_documentation code
  else if criterion = "efficiency" then evaluate_efficiency code
  else if criterion = "readability" then evaluate_readability code
  else if criterion = "best_practices" then evaluate_best_practices code
  else (5, "Basic " ++ criterion ++ " check - detailed evaluation not implemented yet.")

/-- One iteration of the main loop (lines 247–272) over the running state
`(results, total_score, max_possible)`. -/
def processCriterion (code : String)
    (st : List (String × CriterionResult) × Int × Int) (criterion : String) :
    List (String × CriterionResult) × Int × Int :=
  if criterion = "correctness" ∧ hasKey st.1 "correctness" then st
  else
    let sm := evalCriterion code criterion
    (dictInsert st.1 criterion ⟨sm.1, 10, sm.2⟩, st.2.1 + sm.1, st.2.2 + 10)

/-- `(total_score / max_possible) * 100 if max_possible > 0 else 0` — the
percentage computation appearing verbatim at lines 241 and 275. -/
def pctOf (total maxp : Int) : ℚ :=
  if maxp > 0 then ((total : ℚ) / (maxp : ℚ)) * 100 else 0

/-- The summary tiers (lines 278–285). -/
def summaryFor (percentage : ℚ) : String :=
  if percentage ≥ 80 then "High-quality code that follows good practices in most areas."
  else if percentage ≥ 60 then "Solid code with some areas for improvement."
  else if percentage ≥ 40 then "Code needs improvement in several key areas."
  else "Code has significant issues that should be addressed."

/-- Assembling the final report from the loop state (lines 274–293). -/
def finishReport (st : List (String × CriterionResult) × Int × Int) : EvaluationReport :=
  { total_score := st.2.1
    max_score := st.2.2
    percentage := pctOf st.2.1 st.2.2
    criteria_results := st.1
    summary := summaryFor (pctOf st.2.1 st.2.2) }

/-- `evaluate_code` (lines 206–293).  `parser` stands for `ast.parse` on the
given text.  When `correctness` is requested it is evaluated first; a
correctness score below 3 short-circuits with stamped placeholders, an outer
`max_score` of `len(valid_criteria) * 10`, and a percentage whose
denominator is the 10 points accumulated so far (lines 238–244). -/
def evaluate_code (parser : String → ParseResult) (code : String)
    (criteria : Option (List String)) : EvaluationReport :=
  let vc := validCriteria criteria
  if vc.contains "correctness" then
    let sm := evaluate_syntactic_correctness (parser code)
    let results0 : List (String × CriterionResult) := [("correctness", ⟨sm.1, 10, sm.2⟩)]
    if sm.1 < 3 then
      { total_score := sm.1
        max_score := (vc.length : Int) * 10
        percentage := pctOf sm.1 10
        criteria_results := vc.foldl stampNotEvaluated results0
        summary :=
          "Code has syntax errors that need to be fixed before other aspects can be evaluated." }
    else finishReport (vc.foldl (processCriterion code) (results0, sm.1, 10))
  else finishReport (vc.foldl (processCriterion code) ([], 0, 0))

/-- The parameter bag of `run` (line 295): an optional `code` string and an
optional `criteria` list. -/
structure RunParams where
  code : Option (String)
  criteria : Option (List String)

/-- The envelope returned by `run`: either the error object
`{"error": ..., "status": "failed"}` (carrying no evaluation, so no analyzer
ran), or `{"evaluation": ..., "status": "success"}`. -/
inductive RunResult where
  | failed (error : String)
  | success (evaluation : EvaluationReport)
deriving DecidableEq

/-- `run` (lines 295–312): `params.get("code", "")` followed by the
emptiness check `if not code`. -/
def run (parser : String → ParseResult) (params : RunParams) : RunResult :=
  let code := params.code.getD ""
  let criteria := params.criteria
  if code = "" then .failed "Missing code parameter"
  else .success (evaluate_code parser code criteria)

/-! ### Concrete parser oracles and claim-side predicates -/

/-- A parser oracle for snippets that parse cleanly (used to instantiate
theorems at concrete inputs). -/
def pOk : String → ParseResult := fun _ => .ok

/-- A parser oracle reporting a localized syntax error, as `ast.parse` does
on an unmatched parenthesis. -/
def pSynErr : String → ParseResult := fun _ => .syntacticError 1 "unmatched parenthesis"

/-- Claim-side predicate: the snippet is otherwise empty and contains only a
single single-line comment — every line strips to nothing or to a line
starting with `#`, and exactly one line is non-empty. -/
def onlyCommentLines (code : String) : Bool :=
  (((splitLinesCh code.data).map stripCh).all fun l => l.isEmpty || leadMatch ['#'] l) &&
  ((((splitLinesCh code.data).map stripCh).filter fun l => !l.isEmpty).length == 1)

/-- The snippet witnessing claim 7: a single single-line comment whose text
also contains a triple-quoted span. -/
def docSnippet : String := "# \"\"\"ok\"\"\""

/-- A snippet with one `try:` block and one matched, specific handler. -/
def bpSnippet : String := "try:\n    f()\nexcept ValueError:\n    pass"

/-- Invariant carried through the main evaluation loop: every stored score
is between 0 and 10, and the running total never exceeds the running
maximum. -/
def stInv (st : List (String × CriterionResult) × Int × Int) : Prop :=
  (∀ p ∈ st.1, 0 ≤ p.2.score ∧ p.2.score ≤ 10) ∧ 0 ≤ st.2.1 ∧ st.2.1 ≤ st.2.2

/-! ### Score-bound lemmas for the analyzers -/

theorem syn_score_bounds (p : ParseResult) :
    0 ≤ (evaluate_syntactic_correctness p).1 ∧ (evaluate_syntactic_correctness p).1 ≤ 10 := by
  cases p <;> simp [evaluate_syntactic_correctness]

theorem doc_score_bounds (code : String) :
    0 ≤ (evaluate_documentation code).1 ∧ (evaluate_documentation code).1 ≤ 10 := by
  rw [evaluate_documentation]
  split_ifs <;> norm_num

theorem effScore_bounds (code : String) : 0 ≤ effScore code ∧ effScore code ≤ 10 := by
  rw [effScore]
  split_ifs <;> omega

theorem eff_fst (code : String) : (evaluate_efficiency code).1 = effScore code := by
  rw [evaluate_efficiency]
  split_ifs <;> rfl

theorem readScore_bounds (code : String) : 0 ≤ readScore code ∧ readScore code ≤ 10 := by
  rw [readScore]
  simp only [readIndents, List.isEmpty_nil, Bool.not_true, Bool.false_and,
    Bool.false_eq_true, if_false]
  split_ifs <;> omega

theorem read_fst (code : String) : (evaluate_readability code).1 = readScore code := by
  rw [evaluate_readability]
  split_ifs <;> rfl

theorem bp_step_fst (code : String) (s : Int) (i p : List String) :
    (bpExceptionStep code s i p).1 = s + 1 ∨ (bpExceptionStep code s i p).1 = s - 1 ∨
    (bpExceptionStep code s i p).1 = s := by
  rw [bpExceptionStep]
  split_ifs <;> simp

theorem bpBase_bounds (code : String) : 3 ≤ bpBase code ∧ bpBase code ≤ 7 := by
  rw [bpBase]
  split_ifs <;> omega

theorem bpScore_bounds (code : String) : 0 ≤ bpScore code ∧ bpScore code ≤ 10 := by
  have hb := bpBase_bounds code
  rcases bp_step_fst code (bpBase code) (bpIssuesBase code) [] with h | h | h <;>
    · rw [bpScore, h]
      split_ifs <;> omega

theorem bp_fst (code : String) : (evaluate_best_practices code).1 = bpScore code := by
  rw [evaluate_best_practices]
  split_ifs <;> rfl

theorem bp_score_bounds (code : String) :
    0 ≤ (evaluate_best_practices code).1 ∧ (evaluate_best_practices code).1 ≤ 10 := by
  rw [bp_fst]
  exact bpScore_bounds code

theorem evalCriterion_bounds (code c : String) :
    0 ≤ (evalCriterion code c).1 ∧ (evalCriterion code c).1 ≤ 10 := by
  rw [evalCriterion]
  split_ifs
  · exact doc_score_bounds code
  · rw [eff_fst]; exact effScore_bounds code
  · rw [read_fst]; exact readScore_bounds code
  · exact bp_score_bounds code
  · norm_num

/-! ### Association-list and loop lemmas -/

theorem mem_dictInsert {rs : List (String × CriterionResult)} {k : String}
    {v : CriterionResult} {p : String × CriterionResult} (h : p ∈ dictInsert rs k v) :
    p ∈ rs ∨ p = (k, v) := by
  rw [dictInsert] at h
  split_ifs at h
  · rcases List.mem_map.mp h with ⟨q, hq, hqe⟩
    by_cases hk : q.1 == k
    · right; rw [if_pos hk] at hqe; exact hqe.symm
    · left; rw [if_neg hk] at hqe; exact hqe ▸ hq
  · rcases List.mem_append.mp h with h' | h'
    · exact Or.inl h'
    · right; simpa using h'

theorem processCriterion_inv (code : String) (c : String)
    {st : List (String × CriterionResult) × Int × Int} (h : stInv st) :
    stInv (processCriterion code st c) := by
  rw [processCriterion]
  split_ifs with hc
  · exact h
  · obtain ⟨hmem, h0, h1⟩ := h
    have hb := evalCriterion_bounds code c
    refine ⟨?_, ?_, ?_⟩
    · intro p hp
      rcases mem_dictInsert hp with h' | h'
      · exact hmem p h'
      · rw [h']; exact hb
    · show 0 ≤ st.2.1 + (evalCriterion code c).1
      omega
    · show st.2.1 + (evalCriterion code c).1 ≤ st.2.2 + 10
      omega

theorem foldl_processCriterion_inv (code : String) (l : List String)
    {st : List (String × CriterionResult) × Int × Int} (h : stInv st) :
    stInv (l.foldl (processCriterion code) st) := by
  induction l generalizing st with
  | nil => exact h
  | cons a t ih => exact ih (processCriterion_inv code a h)

theorem hasKey_false_lookup {rs : List (String × CriterionResult)} {c : String}
    (h : hasKey rs c = false) : lookupA c rs = none := by
  induction rs with
  | nil => rfl
  | cons p ps ih =>
    rw [hasKey, List.any_cons, Bool.or_eq_false_iff] at h
    rw [lookupA, if_neg (by simp [h.1]), ih h.2]

theorem hasKey_true_lookup {rs : List (String × CriterionResult)} {c : String}
    (h : hasKey rs c = true) : ∃ v, lookupA c rs = some v := by
  induction rs with
  | nil => simp [hasKey] at h
  | cons p ps ih =>
    rw [hasKey, List.any_cons, Bool.or_eq_true] at h
    by_cases hp : p.1 == c
    · exact ⟨p.2, by rw [lookupA, if_pos hp]⟩
    · rcases ih (h.resolve_left (by simp [hp])) with ⟨v, hv⟩
      exact ⟨v, by rw [lookupA, if_neg hp, hv]⟩

theorem lookupA_append_left {rs l2 : List (String × CriterionResult)} {c : String}
    {v : CriterionResult} (h : lookupA c rs = some v) : lookupA c (rs ++ l2) = some v := by
  induction rs with
  | nil => simp [lookupA] at h
  | cons p ps ih =>
    rw [List.cons_append, lookupA]
    rw [lookupA] at h
    by_cases hp : p.1 == c
    · rwa [if_pos hp] at h ⊢
    · rw [if_neg hp] at h ⊢
      exact ih h

theorem lookupA_append_none {rs l2 : List (String × CriterionResult)} {c : String}
    (h : lookupA c rs = none) : lookupA c (rs ++ l2) = lookupA c l2 := by
  induction rs with
  | nil => rfl
  | cons p ps ih =>
    rw [List.cons_append, lookupA]
    rw [lookupA] at h
    by_cases hp : p.1 == c
    · rw [if_pos hp] at h; exact absurd h (by simp)
    · rw [if_neg hp] at h ⊢
      exact ih h

theorem stamp_once_lookup {rs : List (String × CriterionResult)} {c : String}
    {v : CriterionResult} (a : String) (h : lookupA c rs = some v) :
    lookupA c (stampNotEvaluated rs a) = some v := by
  rw [stampNotEvaluated]
  split_ifs
  · exact lookupA_append_left h
  · exact h

theorem stamp_fold_pres {l : List String} {rs : List (String × CriterionResult)}
    {c : String} {v : CriterionResult} (h : lookupA c rs = some v) :
    lookupA c (l.foldl stampNotEvaluated rs) = some v := by
  induction l generalizing rs with
  | nil => exact h
  | cons a t ih => exact ih (stamp_once_lookup a h)

theorem stamp_fold_mem {l : List String} {rs : List (String × CriterionResult)} {c : String}
    (hcl : c ∈ l) (hne : c ≠ "correctness")
    (hrs : lookupA c rs = none ∨ lookupA c rs = some notEvalRes) :
    lookupA c (l.foldl stampNotEvaluated rs) = some notEvalRes := by
  induction l generalizing rs with
  | nil => cases hcl
  | cons a t ih =>
    rw [List.foldl_cons]
    rcases List.mem_cons.mp hcl with rfl | hct
    · rcases hrs with hnone | hsome
      · have hk : hasKey rs c = false := by
          by_contra hk
          rcases hasKey_true_lookup (Bool.of_not_eq_false hk) with ⟨v, hv⟩
          rw [hv] at hnone; cases hnone
        have : stampNotEvaluated rs c = rs ++ [(c, notEvalRes)] := by
          rw [stampNotEvaluated, if_pos]
          rw [Bool.and_eq_true, Bool.not_eq_true', Bool.not_eq_true']
          exact ⟨beq_eq_false_iff_ne.mpr hne, hk⟩
        rw [this]
        exact stamp_fold_pres (by rw [lookupA_append_none hnone]; simp [lookupA])
      · exact stamp_fold_pres (stamp_once_lookup c hsome)
    · apply ih hct
      rw [stampNotEvaluated]
      split_ifs
      · rcases hrs with hnone | hsome
        · rw [lookupA_append_none hnone, lookupA]
          split_ifs with ha
          · right; rfl
          · left; rfl
        · exact Or.inr (lookupA_append_left hsome)
      · exact hrs

theorem mem_stamp_fold {l : List String} {rs : List (String × CriterionResult)}
    {p : String × CriterionResult} (h : p ∈ l.foldl stampNotEvaluated rs) :
    p ∈ rs ∨ p.2 = notEvalRes := by
  induction l generalizing rs with
  | nil => exact Or.inl h
  | cons a t ih =>
    rw [List.foldl_cons] at h
    rcases ih h with h' | h'
    · rw [stampNotEvaluated] at h'
      split_ifs at h'
      · rcases List.mem_append.mp h' with h'' | h''
        · exact Or.inl h''
        · right
          have : p = (a, notEvalRes) := by simpa using h''
          rw [this]
      · exact Or.inl h'
    · exact Or.inr h'

/-! ### Percentage and substring lemmas -/

theorem pctOf_zero (t : Int) : pctOf t 0 = 0 := by
  rw [pctOf]
  norm_num

theorem pctOf_bounds {t m : Int} (h0 : 0 ≤ t) (h1 : t ≤ m) :
    0 ≤ pctOf t m ∧ pctOf t m ≤ 100 := by
  rw [pctOf]
  split_ifs with hm
  · have hmq : (0 : ℚ) < (m : ℚ) := by exact_mod_cast hm
    have htq : (0 : ℚ) ≤ (t : ℚ) := by exact_mod_cast h0
    have h1q : (t : ℚ) ≤ (m : ℚ) := by exact_mod_cast h1
    constructor
    · positivity
    · have hdiv : (t : ℚ) / (m : ℚ) ≤ 1 := (div_le_one hmq).mpr h1q
      calc (t : ℚ) / (m : ℚ) * 100 ≤ 1 * 100 :=
            mul_le_mul_of_nonneg_right hdiv (by norm_num)
        _ = 100 := by norm_num
  · norm_num

theorem leadMatch_append_self (p b : List Char) : leadMatch p (p ++ b) = true := by
  induction p with
  | nil => rfl
  | cons c cs ih => simp [leadMatch, ih]

theorem hasRun_here (p l : List Char) (h : leadMatch p l = true) : hasRun p l = true := by
  cases l with
  | nil => simpa [hasRun] using h
  | cons c cs => simp [hasRun, h]

theorem hasRun_mid (a p b : List Char) : hasRun p (a ++ (p ++ b)) = true := by
  induction a with
  | nil =>
    rw [List.nil_append]
    exact hasRun_here p (p ++ b) (leadMatch_append_self p b)
  | cons c cs ih =>
    rw [List.cons_append]
    simp [hasRun, ih]

theorem strContains_mid (a p b : String) : strContains (a ++ (p ++ b)) p = true := by
  rw [strContains, String.data_append, String.data_append]
  exact hasRun_mid a.data p.data b.data

theorem hasRun_suffix (x p : List Char) : hasRun p (x ++ p) = true := by
  have h := hasRun_mid x p []
  rwa [List.append_nil] at h

theorem strContains_suffix (x p : String) : strContains (x ++ p) p = true := by
  rw [strContains, String.data_append]
  exact hasRun_suffix x.data p.data

/-! ### Branch equations for `evaluate_code` -/

theorem evaluate_code_short (parser : String → ParseResult) (code : String)
    (criteria : Option (List String))
    (hcont : (validCriteria criteria).contains "correctness" = true)
    (h2 : (evaluate_syntactic_correctness (parser code)).1 < 3) :
    evaluate_code parser code criteria =
      { total_score := (evaluate_syntactic_correctness (parser code)).1
        max_score := ((validCriteria criteria).length : Int) * 10
        percentage := pctOf (evaluate_syntactic_correctness (parser code)).1 10
        criteria_results := (validCriteria criteria).foldl stampNotEvaluated
          [("correctness", ⟨(evaluate_syntactic_correctness (parser code)).1, 10,
            (evaluate_syntactic_correctness (parser code)).2⟩)]
        summary :=
          "Code has syntax errors that need to be fixed before other aspects can be evaluated." } := by
  simp only [evaluate_code, hcont, if_true, if_pos h2]

theorem evaluate_code_corr_main (parser : String → ParseResult) (code : String)
    (criteria : Option (List String))
    (hcont : (validCriteria criteria).contains "correctness" = true)
    (h2 : ¬ (evaluate_syntactic_correctness (parser code)).1 < 3) :
    evaluate_code parser code criteria =
      finishReport ((validCriteria criteria).foldl (processCriterion code)
        ([("correctness", ⟨(evaluate_syntactic_correctness (parser code)).1, 10,
          (evaluate_syntactic_correctness (parser code)).2⟩)],
          (evaluate_syntactic_correctness (parser code)).1, 10)) := by
  simp only [evaluate_code, hcont, if_true, if_neg h2]

theorem evaluate_code_no_corr (parser : String → ParseResult) (code : String)
    (criteria : Option (List String))
    (hcont : (validCriteria criteria).contains "correctness" = false) :
    evaluate_code parser code criteria =
      finishReport ((validCriteria criteria).foldl (processCriterion code) ([], 0, 0)) := by
  simp only [evaluate_code, hcont, Bool.false_eq_true, if_false]

theorem processCriterion_skip (code : String)
    (st : List (String × CriterionResult) × Int × Int)
    (hk : hasKey st.1 "correctness" = true) :
    processCriterion code st "correctness" = st := by
  rw [processCriterion, if_pos ⟨rfl, hk⟩]

theorem processCriterion_fresh (code : String)
    (st : List (String × CriterionResult) × Int × Int) (c : String)
    (hne : c ≠ "correctness") (hk : hasKey st.1 c = false) :
    processCriterion code st c =
      (st.1 ++ [(c, ⟨(evalCriterion code c).1, 10, (evalCriterion code c).2⟩)],
        st.2.1 + (evalCriterion code c).1, st.2.2 + 10) := by
  rw [processCriterion, if_neg (fun hh => hne hh.1)]
  show (dictInsert st.1 c _, _, _) = _
  rw [dictInsert, if_neg (by simp [hk])]

theorem finishReport_bounds (st : List (String × CriterionResult) × Int × Int)
    (h : stInv st) :
    0 ≤ (finishReport st).percentage ∧ (finishReport st).percentage ≤ 100 ∧
    ((finishReport st).max_score = 0 → (finishReport st).percentage = 0) := by
  obtain ⟨-, h0, h1⟩ := h
  have hp := pctOf_bounds h0 h1
  refine ⟨hp.1, hp.2, fun hm => ?_⟩
  show pctOf st.2.1 st.2.2 = 0
  have hz : st.2.2 = 0 := hm
  rw [hz, pctOf_zero]

/-! ### The claims -/

/-- C4.  The claim says that any indented line whose leading-whitespace
width is not a multiple of 4 costs readability a flat 2 points.  In the code
the check is dead: `finditer` receives `re.MULTILINE` in its `pos` argument,
so `indents` is always empty (`readIndents`), and the snippet
`"if x:\n  y = 1"` — whose only indented line has width 2 — keeps the full
baseline score 7 instead of the claimed 5. -/
theorem claim4_indent_penalty_dead :
    readIndents "if x:\n  y = 1" = [] ∧
    evaluate_readability "if x:\n  y = 1" =
      (7, "Code has reasonable readability but could be improved. ") :=
  ⟨rfl, by decide⟩

/-- C5.  `evaluate_syntactic_correctness` has exactly three outcomes: a
clean parse scores 10 with the fixed message; a localized syntax error
scores 0 with a message embedding the failing line number (and the
diagnostic); any other parser-internal error scores 2 with a message
embedding the error text. -/
theorem claim5_three_outcomes (p : ParseResult) :
    (p = ParseResult.ok →
      evaluate_syntactic_correctness p = (10, "No syntax errors detected.")) ∧
    (∀ n msg, p = ParseResult.syntacticError n msg →
      (evaluate_syntactic_correctness p).1 = 0 ∧
      strContains (evaluate_syntactic_correctness p).2 (toString n) = true ∧
      strContains (evaluate_syntactic_correctness p).2 msg = true) ∧
    (∀ msg, p = ParseResult.otherError msg →
      (evaluate_syntactic_correctness p).1 = 2 ∧
      strContains (evaluate_syntactic_correctness p).2 msg = true) := by
  refine ⟨fun h => by rw [h]; rfl, ?_, ?_⟩
  · rintro n msg rfl
    refine ⟨rfl, ?_, ?_⟩
    · show strContains ("Syntax error at line " ++ toString n ++ ": " ++ msg) (toString n) = true
      rw [strContains, String.data_append, String.data_append, String.data_append,
        List.append_assoc, List.append_assoc]
      exact hasRun_mid _ _ _
    · show strContains ("Syntax error at line " ++ toString n ++ ": " ++ msg) msg = true
      exact strContains_suffix _ _
  · rintro msg rfl
    exact ⟨rfl, strContains_suffix _ _⟩

/-- Witness for C5 at a concrete localized syntax error. -/
theorem claim5_three_outcomes_instance :
    ParseResult.syntacticError 7 "bad" = ParseResult.syntacticError 7 "bad" ∧
    ((evaluate_syntactic_correctness (ParseResult.syntacticError 7 "bad")).1 = 0 ∧
      strContains (evaluate_syntactic_correctness (ParseResult.syntacticError 7 "bad")).2
        (toString 7) = true ∧
      strContains (evaluate_syntactic_correctness (ParseResult.syntacticError 7 "bad")).2
        "bad" = true) :=
  ⟨rfl, (claim5_three_outcomes (ParseResult.syntacticError 7 "bad")).2.1 7 "bad" rfl⟩

/-- C8.  `run` returns the fixed error envelope when `code` is missing or
empty (carrying no evaluation, so no analyzer runs), and otherwise wraps the
full evaluation in a success envelope. -/
theorem claim8_run_envelope (parser : String → ParseResult) (params : RunParams) :
    ((params.code = none ∨ params.code = some "") →
      run parser params = RunResult.failed "Missing code parameter") ∧
    (∀ s, params.code = some s → s ≠ "" →
      run parser params = RunResult.success (evaluate_code parser s params.criteria)) := by
  constructor
  · rintro (h | h) <;> simp [run, h]
  · intro s h hs
    simp [run, h, hs]

/-- Witness for C8 on a concrete parameter bag with non-empty code. -/
theorem claim8_run_envelope_instance :
    (some "x = 1" = some "x = 1") ∧ ("x = 1" ≠ "") ∧
    run pOk ⟨some "x = 1", none⟩ = RunResult.success (evaluate_code pOk "x = 1" none) :=
  ⟨rfl, by decide,
    (claim8_run_envelope pOk ⟨some "x = 1", none⟩).2 "x = 1" rfl (by decide)⟩

/-- C9.  The exception-handling adjustment of `evaluate_best_practices`:
equal positive opener/handler counts with no bare `except:` add one point
and note proper exception handling; a bare `except:` (which also falsifies
the first condition) subtracts one point and notes bare except clauses. -/
theorem claim9_exception_handling (code : String) (score : Int)
    (issues positives : List String) :
    (tryCount code > 0 → tryCount code = exceptCount code → hasBareExcept code = false →
      bpExceptionStep code score issues positives =
        (score + 1, issues, positives ++ ["Uses proper exception handling"])) ∧
    (hasBareExcept code = true →
      bpExceptionStep code score issues positives =
        (score - 1, issues ++ ["Uses bare except clauses without specifying exception types"],
          positives)) := by
  constructor
  · intro h1 h2 h3
    rw [bpExceptionStep, if_pos ⟨h1, h2, h3⟩]
  · intro hb
    rw [bpExceptionStep, if_neg, if_pos hb]
    rintro ⟨-, -, h3⟩
    rw [hb] at h3
    cases h3

/-- Witness for C9 on a snippet with one matched, specific handler. -/
theorem claim9_exception_handling_instance :
    tryCount bpSnippet > 0 ∧ tryCount bpSnippet = exceptCount bpSnippet ∧
    hasBareExcept bpSnippet = false ∧
    bpExceptionStep bpSnippet 7 [] [] = (8, [], ["Uses proper exception handling"]) :=
  ⟨by decide, by decide, by decide, by
    have h := (claim9_exception_handling bpSnippet 7 [] []).1 (by decide) (by decide) (by decide)
    simpa using h⟩

/-- C7.  With zero code lines the documentation ratio is computed against
denominator 1, and the otherwise-empty snippet `# """ok"""` — a single
single-line comment — reaches the top band (score 9): the comment counts
once, and the triple-quoted span inside it also matches the docstring
pattern, so the docstring requirement of the top band is met. -/
theorem claim7_zero_code_lines :
    (∀ code : String, (docLineCounts code).2 = 0 →
      docRatio code = ((docstringCount code : ℚ) + ((docLineCounts code).1 : ℚ)) / 1) ∧
    onlyCommentLines docSnippet = true ∧ (evaluate_documentation docSnippet).1 = 9 := by
  refine ⟨?_, by decide, ?_⟩
  · intro code h
    rw [docRatio, h]
    norm_num
  · have h1 : docstringCount docSnippet = 1 := by decide
    have h2 : docLineCounts docSnippet = (1, 0) := by decide
    have h3 : docRatio docSnippet = 2 := by
      rw [docRatio, h1, h2]
      norm_num
    rw [evaluate_documentation,
      if_pos (⟨by rw [h3]; norm_num, by rw [h1]; norm_num⟩ :
        docRatio docSnippet ≥ 0.3 ∧ docstringCount docSnippet > 0)]

/-- Witness for C7's zero-code-lines equation at a concrete comment-only
snippet. -/
theorem claim7_zero_code_lines_instance :
    (docLineCounts "# hi").2 = 0 ∧
    docRatio "# hi" = ((docstringCount "# hi" : ℚ) + ((docLineCounts "# hi").1 : ℚ)) / 1 :=
  ⟨by decide, claim7_zero_code_lines.1 "# hi" (by decide)⟩

/-- C1.  When `correctness` is among the valid criteria and scores below 3,
every other valid criterion is stamped with score 0, nested max 10 and the
fixed message (`notEvalRes`), the outer `max_score` is 10 times the number
of valid criteria, and the percentage is computed against a denominator of
10 — only the correctness criterion's points. -/
theorem claim1_short_circuit (parser : String → ParseResult) (code : String)
    (criteria : Option (List String))
    (h1 : "correctness" ∈ validCriteria criteria)
    (h2 : (evaluate_syntactic_correctness (parser code)).1 < 3) :
    (∀ c ∈ validCriteria criteria, c ≠ "correctness" →
      lookupA c (evaluate_code parser code criteria).criteria_results = some notEvalRes) ∧
    (evaluate_code parser code criteria).max_score =
      ((validCriteria criteria).length : Int) * 10 ∧
    (evaluate_code parser code criteria).percentage =
      ((evaluate_code parser code criteria).total_score : ℚ) / 10 * 100 := by
  have hcont : (validCriteria criteria).contains "correctness" = true := List.elem_iff.mpr h1
  rw [evaluate_code_short parser code criteria hcont h2]
  refine ⟨?_, rfl, ?_⟩
  · intro c hc hne
    apply stamp_fold_mem hc hne
    left
    rw [lookupA, if_neg (by simp [beq_eq_false_iff_ne.mpr (Ne.symm hne)]), lookupA]
  · show pctOf (evaluate_syntactic_correctness (parser code)).1 10 = _
    rw [pctOf, if_pos (by norm_num)]
    norm_num

/-- C2 counterexample.  The claim says the percentage is 0 exactly when the
accumulated denominator is 0.  Requesting only `correctness` on a snippet
whose parse fails yields percentage 0 while the accumulated `max_possible`
(equal to the reported `max_score` here) is 10, not 0. -/
theorem claim2_percentage_counterexample :
    (evaluate_code pSynErr ")" (some ["correctness"])).percentage = 0 ∧
    (evaluate_code pSynErr ")" (some ["correctness"])).max_score = 10 := by
  constructor
  · rw [evaluate_code_short pSynErr ")" (some ["correctness"]) (by decide) (by decide)]
    show pctOf (evaluate_syntactic_correctness (pSynErr ")")).1 10 = 0
    have h0 : (evaluate_syntactic_correctness (pSynErr ")")).1 = 0 := by decide
    rw [h0, pctOf, if_pos (by norm_num)]
    norm_num
  · decide

/-- C2 (amended).  The percentage always lies in [0, 100], and a zero
denominator forces percentage 0; the converse direction of the claim fails
(see the counterexample). -/
theorem claim2_percentage_bounds (parser : String → ParseResult) (code : String)
    (criteria : Option (List String)) :
    0 ≤ (evaluate_code parser code criteria).percentage ∧
    (evaluate_code parser code criteria).percentage ≤ 100 ∧
    ((evaluate_code parser code criteria).max_score = 0 →
      (evaluate_code parser code criteria).percentage = 0) := by
  have hb := syn_score_bounds (parser code)
  by_cases hcont : (validCriteria criteria).contains "correctness" = true
  · by_cases h3 : (evaluate_syntactic_correctness (parser code)).1 < 3
    · rw [evaluate_code_short parser code criteria hcont h3]
      have hp := pctOf_bounds hb.1 hb.2
      refine ⟨hp.1, hp.2, fun h0 => ?_⟩
      exfalso
      have h0' : ((validCriteria criteria).length : Int) * 10 = 0 := h0
      have hlen : (validCriteria criteria).length = 0 := by omega
      rw [List.length_eq_zero.mp hlen] at hcont
      cases hcont
    · rw [evaluate_code_corr_main parser code criteria hcont h3]
      apply finishReport_bounds
      apply foldl_processCriterion_inv
      refine ⟨?_, hb.1, hb.2⟩
      intro p hp
      rw [List.mem_singleton.mp hp]
      exact hb
  · rw [evaluate_code_no_corr parser code criteria (Bool.of_not_eq_true hcont)]
    apply finishReport_bounds
    apply foldl_processCriterion_inv
    exact ⟨fun p hp => absurd hp (List.not_mem_nil p), le_refl 0, le_refl 0⟩

/-- Witness for C2 (amended): a request whose only criterion is unknown, so
the denominator is 0 and the percentage is 0. -/
theorem claim2_percentage_bounds_instance :
    (evaluate_code pOk "" (some ["nope"])).max_score = 0 ∧
    (evaluate_code pOk "" (some ["nope"])).percentage = 0 :=
  ⟨by decide, (claim2_percentage_bounds pOk "" (some ["nope"])).2.2 (by decide)⟩

/-- C10.  Every per-criterion score stored in any report is at most 10: the
additive bonuses can never push an analyzer past 10 (efficiency tops out at
9, best-practices at 10, readability at 7). -/
theorem claim10_score_upper_bound (parser : String → ParseResult) (code : String)
    (criteria : Option (List String)) (c : String) (res : CriterionResult)
    (h : (c, res) ∈ (evaluate_code parser code criteria).criteria_results) :
    res.score ≤ 10 := by
  have hb := syn_score_bounds (parser code)
  by_cases hcont : (validCriteria criteria).contains "correctness" = true
  · by_cases h3 : (evaluate_syntactic_correctness (parser code)).1 < 3
    · rw [evaluate_code_short parser code criteria hcont h3] at h
      rcases mem_stamp_fold h with h' | h'
      · have he := List.mem_singleton.mp h'
        have hr : res = ⟨(evaluate_syntactic_correctness (parser code)).1, 10,
            (evaluate_syntactic_correctness (parser code)).2⟩ :=
          congrArg Prod.snd he
        rw [hr]
        exact hb.2
      · have hr : res = notEvalRes := h'
        rw [hr]
        norm_num [notEvalRes]
    · rw [evaluate_code_corr_main parser code criteria hcont h3] at h
      have hinv : stInv ([("correctness", ⟨(evaluate_syntactic_correctness (parser code)).1, 10,
          (evaluate_syntactic_correctness (parser code)).2⟩)],
          (evaluate_syntactic_correctness (parser code)).1, 10) :=
        ⟨fun p hp => by rw [List.mem_singleton.mp hp]; exact hb, hb.1, hb.2⟩
      have hfin := foldl_processCriterion_inv code (validCriteria criteria) hinv
      exact (hfin.1 (c, res) h).2
  · rw [evaluate_code_no_corr parser code criteria (Bool.of_not_eq_true hcont)] at h
    have hinv : stInv (([], 0, 0) : List (String × CriterionResult) × Int × Int) :=
      ⟨fun p hp => absurd hp (List.not_mem_nil p), le_refl 0, le_refl 0⟩
    have hfin := foldl_processCriterion_inv code (validCriteria criteria) hinv
    exact (hfin.1 (c, res) h).2

/-- Witness for C10: the correctness entry of a one-criterion report. -/
theorem claim10_score_upper_bound_instance :
    (("correctness", (⟨10, 10, "No syntax errors detected."⟩ : CriterionResult)) ∈
      (evaluate_code pOk "x = 1" (some ["correctness"])).criteria_results) ∧
    (⟨10, 10, "No syntax errors detected."⟩ : CriterionResult).score ≤ 10 :=
  ⟨by decide,
    claim10_score_upper_bound pOk "x = 1" (some ["correctness"]) "correctness"
      ⟨10, 10, "No syntax errors detected."⟩ (by decide)⟩

/-- Witness for C1: a two-criterion request on a snippet whose parse fails. -/
theorem claim1_short_circuit_instance :
    "correctness" ∈ validCriteria (some ["correctness", "readability"]) ∧
    (evaluate_syntactic_correctness (pSynErr ")")).1 < 3 ∧
    ((∀ c ∈ validCriteria (some ["correctness", "readability"]), c ≠ "correctness" →
      lookupA c (evaluate_code pSynErr ")" (some ["correctness", "readability"])).criteria_results =
        some notEvalRes) ∧
    (evaluate_code pSynErr ")" (some ["correctness", "readability"])).max_score =
      ((validCriteria (some ["correctness", "readability"])).length : Int) * 10 ∧
    (evaluate_code pSynErr ")" (some ["correctness", "readability"])).percentage =
      ((evaluate_code pSynErr ")" (some ["correctness", "readability"])).total_score : ℚ) /
        10 * 100) :=
  ⟨by decide, by decide,
    claim1_short_circuit pSynErr ")" (some ["correctness", "readability"])
      (by decide) (by decide)⟩

/-- C3 counterexample.  The claim says a duplicated criterion name is a
no-op, so the report for a list with duplicates equals the deduplicated
one.  Requesting `efficiency` twice doubles both `total_score` and
`max_score`: the main loop only skips duplicates of `correctness`. -/
theorem claim3_duplicate_counterexample :
    (evaluate_code pOk "x = 1" (some ["efficiency", "efficiency"])).max_score = 20 ∧
    (evaluate_code pOk "x = 1" (some ["efficiency"])).max_score = 10 ∧
    (evaluate_code pOk "x = 1" (some ["efficiency", "efficiency"])).max_score ≠
      (evaluate_code pOk "x = 1" (some ["efficiency"])).max_score := by
  refine ⟨by decide, by decide, by decide⟩

/-- C3 (amended).  Only a duplicated `correctness` is skipped by the main
loop.  For any other registered criterion, each duplicate occurrence is
evaluated again: `criteria_results` is unchanged (the key is overwritten
with an identical entry) but every occurrence adds the criterion's score to
`total_score` and 10 to `max_score`. -/
theorem claim3_duplicate_double_count (parser : String → ParseResult) (code : String)
    (c : String) (hreg : registryHasKey c = true) (hne : c ≠ "correctness") :
    (evaluate_code parser code (some [c, c])).criteria_results =
      (evaluate_code parser code (some [c])).criteria_results ∧
    (evaluate_code parser code (some [c, c])).total_score =
      2 * (evaluate_code parser code (some [c])).total_score ∧
    (evaluate_code parser code (some [c, c])).max_score =
      2 * (evaluate_code parser code (some [c])).max_score := by
  have hbeq : ("correctness" == c) = false := beq_eq_false_iff_ne.mpr (Ne.symm hne)
  have hvc2 : validCriteria (some [c, c]) = [c, c] := by
    simp [validCriteria, effectiveCriteria, List.filter, hreg]
  have hvc1 : validCriteria (some [c]) = [c] := by
    simp [validCriteria, effectiveCriteria, List.filter, hreg]
  have hcc2 : (validCriteria (some [c, c])).contains "correctness" = false := by
    rw [hvc2]
    simp [List.contains, List.elem, hbeq]
  have hcc1 : (validCriteria (some [c])).contains "correctness" = false := by
    rw [hvc1]
    simp [List.contains, List.elem, hbeq]
  have hstep1 : processCriterion code ([], 0, 0) c =
      ([(c, ⟨(evalCriterion code c).1, 10, (evalCriterion code c).2⟩)],
        (evalCriterion code c).1, 10) := by
    rw [processCriterion_fresh code ([], 0, 0) c hne (by simp [hasKey])]
    norm_num
  have hstep2 : processCriterion code
      ([(c, ⟨(evalCriterion code c).1, 10, (evalCriterion code c).2⟩)],
        (evalCriterion code c).1, 10) c =
      ([(c, ⟨(evalCriterion code c).1, 10, (evalCriterion code c).2⟩)],
        (evalCriterion code c).1 + (evalCriterion code c).1, 20) := by
    rw [processCriterion, if_neg (fun hh => hne hh.1)]
    show (dictInsert _ c _, _, _) = _
    rw [dictInsert, if_pos (by simp [hasKey])]
    norm_num
  rw [evaluate_code_no_corr parser code (some [c, c]) hcc2,
    evaluate_code_no_corr parser code (some [c]) hcc1, hvc2, hvc1,
    List.foldl_cons, hstep1, List.foldl_cons, hstep2, List.foldl_nil,
    List.foldl_cons, hstep1, List.foldl_nil]
  refine ⟨rfl, ?_, ?_⟩
  · show (evalCriterion code c).1 + (evalCriterion code c).1 = 2 * (evalCriterion code c).1
    ring
  · show (20 : Int) = 2 * 10
    norm_num

/-- Witness for C3 (amended) at a concrete duplicated criterion. -/
theorem claim3_duplicate_double_count_instance :
    registryHasKey "efficiency" = true ∧ "efficiency" ≠ "correctness" ∧
    ((evaluate_code pOk "x = 1" (some ["efficiency", "efficiency"])).criteria_results =
      (evaluate_code pOk "x = 1" (some ["efficiency"])).criteria_results ∧
    (evaluate_code pOk "x = 1" (some ["efficiency", "efficiency"])).total_score =
      2 * (evaluate_code pOk "x = 1" (some ["efficiency"])).total_score ∧
    (evaluate_code pOk "x = 1" (some ["efficiency", "efficiency"])).max_score =
      2 * (evaluate_code pOk "x = 1" (some ["efficiency"])).max_score) :=
  ⟨by decide, by decide,
    claim3_duplicate_double_count pOk "x = 1" "efficiency" (by decide) (by decide)⟩

/-- C6.  With no criteria (or an empty list) and a cleanly parsing snippet,
the report carries exactly the five default criteria in order, and
`max_score` is 50. -/
theorem claim6_default_report (parser : String → ParseResult) (code : String)
    (criteria : Option (List String)) (hc : criteria = none ∨ criteria = some [])
    (hok : parser code = ParseResult.ok) :
    (evaluate_code parser code criteria).criteria_results.map Prod.fst =
      ["correctness", "efficiency", "readability", "documentation", "best_practices"] ∧
    (evaluate_code parser code criteria).max_score = 50 := by
  have hvc : validCriteria criteria = DEFAULT_CRITERIA := by
    rcases hc with rfl | rfl <;> rfl
  have hcont : (validCriteria criteria).contains "correctness" = true := by
    rw [hvc]; decide
  have hsm : evaluate_syntactic_correctness (parser code) =
      (10, "No syntax errors detected.") := by
    rw [hok]; rfl
  have h3 : ¬ (evaluate_syntactic_correctness (parser code)).1 < 3 := by
    rw [hsm]; norm_num
  rw [evaluate_code_corr_main parser code criteria hcont h3, hvc, hsm, DEFAULT_CRITERIA]
  rw [List.foldl_cons, processCriterion_skip code _ (by simp [hasKey]),
    List.foldl_cons, processCriterion_fresh code _ "efficiency" (by decide) (by simp [hasKey]),
    List.foldl_cons, processCriterion_fresh code _ "readability" (by decide) (by simp [hasKey]),
    List.foldl_cons, processCriterion_fresh code _ "documentation" (by decide) (by simp [hasKey]),
    List.foldl_cons, processCriterion_fresh code _ "best_practices" (by decide) (by simp [hasKey]),
    List.foldl_nil]
  constructor
  · show (((([("correctness", _)] ++ _) ++ _) ++ _) ++ _).map Prod.fst = _
    simp
  · show ((((10 + 10) + 10) + 10) + 10 : Int) = 50
    norm_num

/-- Witness for C6 on a concrete snippet with the default criteria. -/
theorem claim6_default_report_instance :
    pOk "x = 1" = ParseResult.ok ∧
    ((evaluate_code pOk "x = 1" none).criteria_results.map Prod.fst =
      ["correctness", "efficiency", "readability", "documentation", "best_practices"] ∧
    (evaluate_code pOk "x = 1" none).max_score = 50) :=
  ⟨rfl, claim6_default_report pOk "x = 1" none (Or.inl rfl) rfl⟩

end SelfEval
